import Mathlib

/-!
# Verification of the searxng-mcp search client and content pipeline

A shallow embedding, in Lean, of the core of the `searxng-mcp` Go
repository: the token-bucket rate limiter, the retrying search client
(`Search` / `SearchJSON`), the response normalizer
(`toSearchResponse`, `parsePublishedDate`), the Markdown post-processor
(`cleanMarkdown`), and the `web_search` tool handler
(`handleWebSearch`).

Modelling conventions:
* Go `time.Time` / `time.Duration` values are modelled as `Nat`
  nanosecond counts on the monotonic clock (so `now - lastRefill` is
  never negative, matching Go's monotonic-clock subtraction).
* Go `int` fields that the code can drive negative (`Limit`, `Page`)
  are modelled as `Int`; counters that stay non-negative are `Nat`.
* Effectful steps (the HTTP round trip, the context channel, the chunk
  of wall-clock time each loop iteration observes) are supplied as
  explicit oracle arguments, so every definition is executable.
* Go strings processed byte-by-byte are modelled as `List Char`
  (the repository only ever feeds them ASCII-safe operations).
-/

/-! ## Rate limiter (pkg/searxng/client.go, `rateLimiter`)

The Go struct `rateLimiter` holds `tokens`, `maxTokens`,
`refillRate` and `lastRefill` behind a mutex; the mutex itself needs no
model because every access in the source is a single lock/unlock
bracket, so the locked region is one atomic step here. -/

structure RateLimiterState where
  tokens : Nat
  maxTokens : Nat
  /-- refill interval in nanoseconds (`refillRate time.Duration`). -/
  refillRate : Nat
  /-- monotonic-clock instant of the last refill. -/
  lastRefill : Nat
deriving Repr, DecidableEq

/-- The refill step executed at the top of every iteration of
`rateLimiter.wait` (client.go lines 52-60): add
`elapsed / refillRate` tokens (integer division), cap at `maxTokens`,
and — only when at least one token was added — set `lastRefill` to the
current instant. -/
def rateLimiterRefill (rl : RateLimiterState) (now : Nat) : RateLimiterState :=
  let elapsed := now - rl.lastRefill
  let tokensToAdd := elapsed / rl.refillRate
  if tokensToAdd > 0 then
    { rl with tokens := min rl.maxTokens (rl.tokens + tokensToAdd), lastRefill := now }
  else
    rl

/-- `newRateLimiter` (client.go lines 39-46). -/
def newRateLimiter (maxTokens : Nat) (refillRate : Nat) (now : Nat) : RateLimiterState :=
  { tokens := maxTokens, maxTokens := maxTokens, refillRate := refillRate, lastRefill := now }

/-- The two values `ctx.Err()` can take once a Go context is done. -/
inductive CtxErr where
  | canceled
  | deadlineExceeded
deriving Repr, DecidableEq

/-- What the `select` at the bottom of `rateLimiter.wait` observes when
no token was available: either the `time.After(rl.refillRate)` timer
fires (`tick`) or the context is done with the given error. -/
inductive WaitEvent where
  | tick
  | cancel (e : CtxErr)
deriving Repr, DecidableEq

/-- Outcome of `rateLimiter.wait`: `success` returns `nil` after
consuming a token, `cancelled` returns `ctx.Err()`. Both carry the
rate-limiter state left behind. -/
inductive WaitResult where
  | success (rl : RateLimiterState)
  | cancelled (e : CtxErr) (rl : RateLimiterState)
deriving Repr, DecidableEq

/-- `rateLimiter.wait` (client.go lines 49-78). Each loop iteration
reads the clock (`now`), refills, and either consumes a token and
returns, or unlocks and blocks on the `select`; the schedule `sched`
supplies, per iteration, the observed clock value and the `select`
outcome. `none` means the supplied schedule ended before the wait did. -/
def rateLimiterWait (rl : RateLimiterState) : List (Nat × WaitEvent) → Option WaitResult
  | [] => none
  | (now, ev) :: rest =>
    let rl1 := rateLimiterRefill rl now
    if rl1.tokens > 0 then
      some (.success { rl1 with tokens := rl1.tokens - 1 })
    else
      match ev with
      | .tick => rateLimiterWait rl1 rest
      | .cancel e => some (.cancelled e rl1)

/-! ## Error model (pkg/searxng/client.go sentinel errors and wraps)

Go errors are wrap chains built with `fmt.Errorf("%w: %w", …)`;
`errors.Is` walks the chain. The inductive mirrors exactly the wraps
the search path can build. -/

inductive SearchErr where
  /-- a bare `ctx.Err()` (`context.Canceled` / `context.DeadlineExceeded`). -/
  | ctx (e : CtxErr)
  /-- `fmt.Errorf("HTTP request failed: %w", err)` — a transport-level
  failure from `httpClient.Do`; it may wrap a context error. -/
  | httpDoFailed (detail : String) (cause : Option CtxErr)
  /-- `fmt.Errorf("HTTP %d: %s", status, body)` on a non-2xx response. -/
  | httpStatus (code : Nat) (body : String)
  /-- `fmt.Errorf("%w: %w", ErrInvalidResponse, err)` on a JSON decode failure. -/
  | invalidResponse (detail : String)
  /-- `fmt.Errorf("failed to create request: %w", err)`. -/
  | requestCreation (detail : String)
  /-- `fmt.Errorf("failed to build search URL: %w", err)`. -/
  | buildURLFailed (detail : String)
  /-- `fmt.Errorf("%w: %w", ErrRequestFailed, lastErr)` after retry exhaustion. -/
  | requestFailed (cause : SearchErr)
  /-- `fmt.Errorf("%w: %w", ErrTimeout, err)` when the rate-limiter wait
  was cancelled. -/
  | timeout (cause : SearchErr)
deriving Repr, DecidableEq

/-- `errors.Is(err, context.Canceled)`: walk the wrap chain looking for
`context.Canceled`. -/
def SearchErr.isCanceled : SearchErr → Bool
  | .ctx .canceled => true
  | .httpDoFailed _ (some .canceled) => true
  | .requestFailed e => e.isCanceled
  | .timeout e => e.isCanceled
  | _ => false

/-- `errors.Is(err, context.DeadlineExceeded)`. -/
def SearchErr.isDeadlineExceeded : SearchErr → Bool
  | .ctx .deadlineExceeded => true
  | .httpDoFailed _ (some .deadlineExceeded) => true
  | .requestFailed e => e.isDeadlineExceeded
  | .timeout e => e.isDeadlineExceeded
  | _ => false

/-- The rendered `err.Error()` string for each wrap chain, following the
`fmt.Errorf` format strings in the source (`errors.New` texts from
client.go lines 21-24). -/
def SearchErr.message : SearchErr → String
  | .ctx .canceled => "context canceled"
  | .ctx .deadlineExceeded => "context deadline exceeded"
  | .httpDoFailed detail _ => "HTTP request failed: " ++ detail
  | .httpStatus code body => "HTTP " ++ toString code ++ ": " ++ body
  | .invalidResponse detail => "invalid response from searxng: " ++ detail
  | .requestCreation detail => "failed to create request: " ++ detail
  | .buildURLFailed detail => "failed to build search URL: " ++ detail
  | .requestFailed cause => "search request failed: " ++ cause.message
  | .timeout cause => "request timeout: " ++ cause.message

/-! ## Wire and internal data model (pkg/searxng/types.go)

Go slices decoded from JSON are `nil` when the field is absent and
non-nil (possibly empty) when present; `Option (List _)` mirrors that:
`none` is the nil slice, `some l` a non-nil slice with elements `l`. -/

structure SearchRequest where
  Query : String
  Limit : Int
  Page : Int
  TimeRange : String
  Category : String
  Language : String
  Engines : List String
deriving Repr, DecidableEq

/-- `APIRequest` — the JSON POST body built by `SearchJSON`. -/
structure APIRequest where
  Query : String
  Category : String
  Engines : List String
  Language : String
  Pageno : Int
  TimeRange : String
  Format : String
deriving Repr, DecidableEq

/-- A parsed `time.Time` as far as the repository observes it: the
calendar fields plus the zone offset the parse produced. -/
structure GoTime where
  year : Nat
  month : Nat
  day : Nat
  hour : Nat
  minute : Nat
  second : Nat
  tzOffsetSeconds : Int
deriving Repr, DecidableEq

structure APIResult where
  URL : String
  Title : String
  Content : String
  PublishedDate : String
  Engine : String
  Category : String
  Score : Float
  Thumbnail : String
  ImgSrc : String
  Engines : Option (List String)
  Positions : Option (List Int)
deriving Repr

structure SearchResult where
  URL : String
  Title : String
  Content : String
  PublishedDate : Option GoTime
  Engine : String
  Category : String
  Score : Float
  Thumbnail : String
  ImageSrc : String
  Engines : Option (List String)
  Positions : Option (List Int)
deriving Repr

structure InfoboxImage where
  URL : String
  Alt : String
  ThumbnailURL : String
deriving Repr, DecidableEq

structure InfoboxRelatedTopic where
  Name : String
  URL : String
deriving Repr, DecidableEq

structure InfoboxURL where
  URL : String
  Title : String
  Engine : String
  Category : String
  ImgSrc : String
deriving Repr, DecidableEq

structure Infobox where
  Content : String
  Engine : String
  Attribution : String
  Images : Option (List InfoboxImage)
  Label : String
  RelatedTopics : Option (List InfoboxRelatedTopic)
  Urls : Option (List InfoboxURL)
deriving Repr, DecidableEq

structure UnresponsiveEngine where
  Name : String
  Error : String
deriving Repr, DecidableEq

structure APIResponse where
  Query : String
  NumberOfResults : Int
  Results : Option (List APIResult)
  Answers : Option (List String)
  Corrections : Option (List String)
  Infoboxes : Option (List Infobox)
  Suggestions : Option (List String)
  UnresponsiveEngines : Option (List UnresponsiveEngine)
deriving Repr

structure SearchResponse where
  Query : String
  NumberOfResults : Int
  Results : Option (List SearchResult)
  Answers : Option (List String)
  Corrections : Option (List String)
  Infoboxes : Option (List Infobox)
  Suggestions : Option (List String)
  UnresponsiveEngines : Option (List UnresponsiveEngine)
deriving Repr

/-! ## `parsePublishedDate` (types.go lines 121-141)

The source calls `time.Parse` with four layouts. `time.Parse` is the
standard library; the helpers below model its behaviour on exactly
those four layouts: fixed-width digit fields, literal separators,
calendar range validation, an optional fractional-second field after
the seconds (accepted by `time.Parse` even when the layout has none),
and for RFC3339 a `Z` or `±hh:mm` zone. -/

def parseFixedNat : Nat → List Char → Nat → Option (Nat × List Char)
  | 0, cs, acc => some (acc, cs)
  | w + 1, c :: rest, acc =>
    if c.isDigit then parseFixedNat w rest (acc * 10 + (c.toNat - 48)) else none
  | _ + 1, [], _ => none

def expectChar (c : Char) : List Char → Option (List Char)
  | d :: rest => if d = c then some rest else none
  | [] => none

def isLeapYear (y : Nat) : Bool :=
  y % 4 == 0 && (y % 100 != 0 || y % 400 == 0)

def daysInMonth (y m : Nat) : Nat :=
  if m == 2 then (if isLeapYear y then 29 else 28)
  else if m == 4 || m == 6 || m == 9 || m == 11 then 30
  else 31

/-- `yyyy-mm-dd` with the range checks `time.Parse` performs. -/
def parseDatePart (cs : List Char) : Option (Nat × Nat × Nat × List Char) := do
  let (y, cs) ← parseFixedNat 4 cs 0
  let cs ← expectChar '-' cs
  let (m, cs) ← parseFixedNat 2 cs 0
  let cs ← expectChar '-' cs
  let (d, cs) ← parseFixedNat 2 cs 0
  if 1 ≤ m ∧ m ≤ 12 ∧ 1 ≤ d ∧ d ≤ daysInMonth y m then some (y, m, d, cs) else none

/-- A fractional-second field (`.` then digits) directly after the
seconds is consumed by `time.Parse` whether or not the layout mentions
one; a `.` not followed by a digit is left in place. -/
def skipFraction : List Char → List Char
  | '.' :: d :: rest => if d.isDigit then (d :: rest).dropWhile Char.isDigit else '.' :: d :: rest
  | cs => cs

/-- `hh:mm:ss` with range checks, fractional seconds skipped. -/
def parseTimePart (cs : List Char) : Option (Nat × Nat × Nat × List Char) := do
  let (h, cs) ← parseFixedNat 2 cs 0
  let cs ← expectChar ':' cs
  let (mi, cs) ← parseFixedNat 2 cs 0
  let cs ← expectChar ':' cs
  let (s, cs) ← parseFixedNat 2 cs 0
  if h ≤ 23 ∧ mi ≤ 59 ∧ s ≤ 59 then some (h, mi, s, skipFraction cs) else none

def parseTZOffset (sign : Int) (cs : List Char) : Option (Int × List Char) := do
  let (hh, cs) ← parseFixedNat 2 cs 0
  let cs ← expectChar ':' cs
  let (mm, cs) ← parseFixedNat 2 cs 0
  if hh ≤ 23 ∧ mm ≤ 59 then some (sign * (hh * 3600 + mm * 60 : Nat), cs) else none

/-- The `Z07:00` chunk of the RFC3339 layout. -/
def parseTZ : List Char → Option (Int × List Char)
  | 'Z' :: rest => some (0, rest)
  | '+' :: rest => parseTZOffset 1 rest
  | '-' :: rest => parseTZOffset (-1) rest
  | _ => none

/-- layout `time.RFC3339` = `2006-01-02T15:04:05Z07:00`. -/
def parseLayoutRFC3339 (cs : List Char) : Option GoTime := do
  let (y, m, d, cs) ← parseDatePart cs
  let cs ← expectChar 'T' cs
  let (h, mi, s, cs) ← parseTimePart cs
  let (off, cs) ← parseTZ cs
  if cs.isEmpty then some ⟨y, m, d, h, mi, s, off⟩ else none

/-- layout `2006-01-02T15:04:05Z` — the trailing `Z` is a literal
character (Go only treats `Z` as a zone chunk when `Z0700`/`Z07:00`
follows in the layout), so this matches only inputs ending in `Z`. -/
def parseLayoutISOZ (cs : List Char) : Option GoTime := do
  let (y, m, d, cs) ← parseDatePart cs
  let cs ← expectChar 'T' cs
  let (h, mi, s, cs) ← parseTimePart cs
  let cs ← expectChar 'Z' cs
  if cs.isEmpty then some ⟨y, m, d, h, mi, s, 0⟩ else none

/-- layout `2006-01-02 15:04:05`. -/
def parseLayoutSpace (cs : List Char) : Option GoTime := do
  let (y, m, d, cs) ← parseDatePart cs
  let cs ← expectChar ' ' cs
  let (h, mi, s, cs) ← parseTimePart cs
  if cs.isEmpty then some ⟨y, m, d, h, mi, s, 0⟩ else none

/-- layout `2006-01-02`. -/
def parseLayoutDateOnly (cs : List Char) : Option GoTime := do
  let (y, m, d, cs) ← parseDatePart cs
  if cs.isEmpty then some ⟨y, m, d, 0, 0, 0, 0⟩ else none

/-- `parsePublishedDate` (types.go lines 121-141): empty input is
`nil`; otherwise the four layouts are tried in order and the first
successful parse wins. -/
def parsePublishedDate (dateStr : String) : Option GoTime :=
  if dateStr = "" then none
  else
    parseLayoutRFC3339 dateStr.data <|> parseLayoutISOZ dateStr.data <|>
      parseLayoutSpace dateStr.data <|> parseLayoutDateOnly dateStr.data

/-- `toSearchResult` (types.go lines 144-158). -/
def toSearchResult (r : APIResult) : SearchResult :=
  { URL := r.URL
    Title := r.Title
    Content := r.Content
    PublishedDate := parsePublishedDate r.PublishedDate
    Engine := r.Engine
    Category := r.Category
    Score := r.Score
    Thumbnail := r.Thumbnail
    ImageSrc := r.ImgSrc
    Engines := r.Engines
    Positions := r.Positions }

/-- `toSearchResponse` (types.go lines 161-177). `make([]SearchResult,
len(r.Results))` is a non-nil slice even for length zero (hence
`some`), and `range` over a nil `r.Results` runs zero iterations
(hence `getD []`); every other sequence field is copied as-is, nil
staying nil. -/
def toSearchResponse (r : APIResponse) : SearchResponse :=
  { Query := r.Query
    NumberOfResults := r.NumberOfResults
    Results := some ((r.Results.getD []).map toSearchResult)
    Answers := r.Answers
    Corrections := r.Corrections
    Infoboxes := r.Infoboxes
    Suggestions := r.Suggestions
    UnresponsiveEngines := r.UnresponsiveEngines }

/-! ## Client configuration (pkg/searxng/config.go) -/

structure Config where
  BaseURL : String
  /-- request timeout in nanoseconds. -/
  Timeout : Nat
  /-- `MaxRetries` is a Go `int`; every constructor in the repository
  supplies a non-negative value, so `Nat` here. -/
  MaxRetries : Nat
  UserAgent : String
deriving Repr, DecidableEq

/-- `DefaultConfig` (config.go lines 24-31). -/
def DefaultConfig : Config :=
  { BaseURL := "https://searxng.example.com"
    Timeout := 30000000000
    MaxRetries := 3
    UserAgent := "searxng-mcp/1.0" }

/-! ## URL construction (client.go, `buildSearchURL`)

`net/url` is the standard library; the helpers below model the calls
the source makes — `url.Values.Set`/`Add`, `Values.Encode` (keys
sorted, `QueryEscape` applied to keys and values) and
`ResolveReference` with the absolute path `/search` against a
well-formed absolute base URL. -/

/-- Go `url.QueryEscape` keeps `A-Za-z0-9`, `-`, `_`, `.`, `~`. -/
def queryEscapeKeep (c : Char) : Bool :=
  c.isAlphanum || c == '-' || c == '_' || c == '.' || c == '~'

def hexDigitChar (n : Nat) : Char :=
  if n < 10 then Char.ofNat (48 + n) else Char.ofNat (55 + n)

def queryEscapeChar (c : Char) : String :=
  if c == ' ' then "+"
  else if queryEscapeKeep c then String.singleton c
  else
    String.join (((String.singleton c).toUTF8.toList).map fun b =>
      String.mk ['%', hexDigitChar (b.toNat / 16), hexDigitChar (b.toNat % 16)])

def queryEscape (s : String) : String :=
  String.join (s.data.map queryEscapeChar)

/-- `url.Values`, ordered association of key to value list. -/
def ValuesSet (vs : List (String × List String)) (k v : String) :
    List (String × List String) :=
  match vs with
  | [] => [(k, [v])]
  | (k', vals) :: rest =>
    if k' = k then (k', [v]) :: rest else (k', vals) :: ValuesSet rest k v

def ValuesAdd (vs : List (String × List String)) (k v : String) :
    List (String × List String) :=
  match vs with
  | [] => [(k, [v])]
  | (k', vals) :: rest =>
    if k' = k then (k', vals ++ [v]) :: rest else (k', vals) :: ValuesAdd rest k v

def insertByKey (p : String × List String) :
    List (String × List String) → List (String × List String)
  | [] => [p]
  | q :: rest => if p.1 < q.1 then p :: q :: rest else q :: insertByKey p rest

/-- `Values.Encode`: sort keys, emit `k=v` pairs joined with `&`. -/
def ValuesEncode (vs : List (String × List String)) : String :=
  let sorted := vs.foldr insertByKey []
  String.intercalate "&"
    (sorted.flatMap fun p => p.2.map fun v => queryEscape p.1 ++ "=" ++ queryEscape v)

/-- The scheme/host/path split of a well-formed absolute URL, which is
all `NewClient` lets through to `buildSearchURL`. -/
structure GoURL where
  scheme : String
  host : String
deriving Repr, DecidableEq

/-- `url.Parse` on an absolute `scheme://host[/...]` URL, reduced to
the pieces `ResolveReference("/search")` keeps. `none` models a parse
error. -/
def parseAbsoluteURL (s : String) : Option GoURL :=
  match s.splitOn "://" with
  | [scheme, rest] =>
    if scheme = "" ∨ rest = "" then none
    else some { scheme := scheme, host := (rest.splitOn "/").headD "" }
  | _ => none

/-- `Client.buildSearchURL` (client.go lines 161-193): resolve
`/search` against the base URL, then set `q` and `format=json`,
conditionally `category`, `language`, `pageno` (only when page > 1) and
`time_range`, and one repeated `engines` entry per requested engine. -/
def buildSearchURL (cfg : Config) (req : SearchRequest) : Except SearchErr String :=
  match parseAbsoluteURL cfg.BaseURL with
  | none => .error (.buildURLFailed "invalid base URL")
  | some u =>
    let apiURL := u.scheme ++ "://" ++ u.host ++ "/search"
    let queryParams : List (String × List String) := []
    let queryParams := ValuesSet queryParams "q" req.Query
    let queryParams := ValuesSet queryParams "format" "json"
    let queryParams :=
      if req.Category ≠ "" then ValuesSet queryParams "category" req.Category else queryParams
    let queryParams :=
      if req.Language ≠ "" then ValuesSet queryParams "language" req.Language else queryParams
    let queryParams :=
      if req.Page > 1 then ValuesSet queryParams "pageno" (toString req.Page) else queryParams
    let queryParams :=
      if req.TimeRange ≠ "" then ValuesSet queryParams "time_range" req.TimeRange else queryParams
    let queryParams := req.Engines.foldl (fun vs e => ValuesAdd vs "engines" e) queryParams
    .ok (apiURL ++ "?" ++ ValuesEncode queryParams)

/-! ## JSON POST body (client.go `SearchJSON` lines 262-279)

`APIRequest` carries `omitempty` on `category`, `engines`, `language`,
`pageno` and `time_range`; `json.Marshal` renders fields in struct
order, dropping `omitempty` fields at their zero value (empty string,
zero, empty-or-nil slice). -/

def jsonEscapeChar (c : Char) : String :=
  if c == '"' then "\\\""
  else if c == '\\' then "\\\\"
  else if c == '<' then "\\u003c"
  else if c == '>' then "\\u003e"
  else if c == '&' then "\\u0026"
  else if c == '\n' then "\\n"
  else if c == '\r' then "\\r"
  else if c == '\t' then "\\t"
  else if c.toNat < 32 then
    "\\u00" ++ String.mk [hexDigitChar (c.toNat / 16), hexDigitChar (c.toNat % 16)]
  else String.singleton c

def jsonString (s : String) : String :=
  "\"" ++ String.join (s.data.map jsonEscapeChar) ++ "\""

/-- `Client.SearchJSON` builds this `APIRequest` from the (already
defaulted) request — note `Limit` is not among its fields. -/
def buildAPIRequest (req : SearchRequest) : APIRequest :=
  { Query := req.Query
    Category := req.Category
    Engines := req.Engines
    Language := req.Language
    Pageno := req.Page
    TimeRange := req.TimeRange
    Format := "json" }

/-- `json.Marshal` on an `APIRequest`, honouring the `omitempty` tags. -/
def marshalAPIRequest (r : APIRequest) : String :=
  let fields : List (Option String) :=
    [ some ("\"q\":" ++ jsonString r.Query)
    , if r.Category = "" then none else some ("\"category\":" ++ jsonString r.Category)
    , if r.Engines = [] then none
      else some ("\"engines\":[" ++ String.intercalate "," (r.Engines.map jsonString) ++ "]")
    , if r.Language = "" then none else some ("\"language\":" ++ jsonString r.Language)
    , if r.Pageno = 0 then none else some ("\"pageno\":" ++ toString r.Pageno)
    , if r.TimeRange = "" then none else some ("\"time_range\":" ++ jsonString r.TimeRange)
    , some ("\"format\":" ++ jsonString r.Format) ]
  "\x7b" ++ String.intercalate "," (fields.filterMap id) ++ "\x7d"

/-! ## Retry loop (client.go lines 137-157 and 283-301)

`Search` and `SearchJSON` contain the same
`for attempt := 0; attempt <= c.config.MaxRetries; attempt++` loop;
one definition embeds both. The HTTP round trip
(`doSearchRequest` / `doSearchJSONRequest`) is external effect, so it
enters as an oracle from attempt number to outcome. The trace records
how many attempts ran and the `time.Sleep` durations (in seconds) in
order. -/

structure RetryOutcome where
  result : Except SearchErr SearchResponse
  attempts : Nat
  sleeps : List Nat
deriving Repr

/-- One run of the loop body starting at `attempt` with
`remaining = MaxRetries - attempt` further attempts allowed. Before
every attempt except the first the code sleeps `attempt` seconds.
A `nil` error returns the response; a context-cancellation or
deadline error returns immediately unwrapped; any other error retries
until attempts are exhausted and is then wrapped as `ErrRequestFailed`. -/
def searchRetryAux (oracle : Nat → Except SearchErr SearchResponse) :
    Nat → Nat → RetryOutcome
  | remaining, attempt =>
    let sleeps := if attempt > 0 then [attempt] else []
    match oracle attempt with
    | .ok resp => { result := .ok resp, attempts := 1, sleeps := sleeps }
    | .error e =>
      if e.isCanceled || e.isDeadlineExceeded then
        { result := .error e, attempts := 1, sleeps := sleeps }
      else
        match remaining with
        | 0 => { result := .error (.requestFailed e), attempts := 1, sleeps := sleeps }
        | r + 1 =>
          let rest := searchRetryAux oracle r (attempt + 1)
          { result := rest.result, attempts := rest.attempts + 1, sleeps := sleeps ++ rest.sleeps }

def searchRetryLoop (maxRetries : Nat) (oracle : Nat → Except SearchErr SearchResponse) :
    RetryOutcome :=
  searchRetryAux oracle maxRetries 0

/-! ## `Client.Search` and `Client.SearchJSON` (client.go 108-158, 233-301) -/

/-- The defaulting block at the top of both `Search` (lines 110-118)
and `SearchJSON` (lines 235-243): non-positive limit becomes 5, then
limits above 20 become 20, then non-positive page becomes 1. -/
def applyDefaults (req : SearchRequest) : SearchRequest :=
  let req := if req.Limit ≤ 0 then { req with Limit := 5 } else req
  let req := if req.Limit > 20 then { req with Limit := 20 } else req
  if req.Page ≤ 0 then { req with Page := 1 } else req

/-- Everything observable about one `Search`/`SearchJSON` call: the
returned value, how many HTTP attempts were issued, the backoff sleeps,
and the rate limiter left behind. -/
structure SearchOutcome where
  result : Except SearchErr SearchResponse
  networkAttempts : Nat
  sleeps : List Nat
  rlFinal : RateLimiterState
deriving Repr

/-- `Client.Search` (client.go lines 108-158): apply defaults, wait on
the rate limiter (cancellation wraps `ctx.Err()` in `ErrTimeout` and
returns before any network activity), build the URL, then run the
retry loop. `none` when `sched` under-specifies the wait. -/
def SearchModel (cfg : Config) (rl : RateLimiterState) (sched : List (Nat × WaitEvent))
    (oracle : Nat → Except SearchErr SearchResponse) (req : SearchRequest) :
    Option SearchOutcome :=
  let req := applyDefaults req
  match rateLimiterWait rl sched with
  | none => none
  | some (.cancelled e rl') =>
    some { result := .error (.timeout (.ctx e)), networkAttempts := 0, sleeps := [],
           rlFinal := rl' }
  | some (.success rl') =>
    match buildSearchURL cfg req with
    | .error e =>
      some { result := .error e, networkAttempts := 0, sleeps := [], rlFinal := rl' }
    | .ok _ =>
      let t := searchRetryLoop cfg.MaxRetries oracle
      some { result := t.result, networkAttempts := t.attempts, sleeps := t.sleeps,
             rlFinal := rl' }

/-- `Client.SearchJSON` (client.go lines 233-301): same shape, but the
request is the marshalled `APIRequest` body instead of a query string.
The oracle abstracts `doSearchJSONRequest`. -/
def SearchJSONModel (cfg : Config) (rl : RateLimiterState) (sched : List (Nat × WaitEvent))
    (oracle : Nat → Except SearchErr SearchResponse) (req : SearchRequest) :
    Option SearchOutcome :=
  let req := applyDefaults req
  match rateLimiterWait rl sched with
  | none => none
  | some (.cancelled e rl') =>
    some { result := .error (.timeout (.ctx e)), networkAttempts := 0, sleeps := [],
           rlFinal := rl' }
  | some (.success rl') =>
    match parseAbsoluteURL cfg.BaseURL with
    | none =>
      some { result := .error (.buildURLFailed "invalid base URL"), networkAttempts := 0,
             sleeps := [], rlFinal := rl' }
    | some _ =>
      let _body := marshalAPIRequest (buildAPIRequest req)
      let t := searchRetryLoop cfg.MaxRetries oracle
      some { result := t.result, networkAttempts := t.attempts, sleeps := t.sleeps,
             rlFinal := rl' }

/-! ## `cleanMarkdown` (pkg/server/reader.go lines 116-144)

The function splits on `"\n"`, trims each line (`strings.TrimSpace`),
keeps at most two consecutive blank lines, strips blank lines at both
ends and rejoins with `"\n"`. Strings are `List Char` here;
`goIsSpace` is `unicode.IsSpace` on the characters the repository can
meet (ASCII whitespace plus NEL and NBSP). -/

def goIsSpace (c : Char) : Bool :=
  c == ' ' || c == '\t' || c == '\n' || c == '\x0b' || c == '\x0c' || c == '\r' ||
    c == Char.ofNat 133 || c == Char.ofNat 160

/-- right half of `strings.TrimSpace`: drop trailing whitespace. -/
def trimRight : List Char → List Char
  | [] => []
  | c :: rest =>
    match trimRight rest with
    | [] => if goIsSpace c then [] else [c]
    | r => c :: r

/-- `strings.TrimSpace`. -/
def trimSpace (l : List Char) : List Char :=
  trimRight (l.dropWhile goIsSpace)

/-- `strings.Split(s, "\n")`. -/
def splitLines : List Char → List (List Char)
  | [] => [[]]
  | c :: rest =>
    let r := splitLines rest
    if c = '\n' then [] :: r
    else
      match r with
      | [] => [[c]]
      | l :: ls => (c :: l) :: ls

/-- `strings.Join(lines, "\n")`. -/
def joinLines : List (List Char) → List Char
  | [] => []
  | [l] => l
  | l :: l' :: ls => l ++ '\n' :: joinLines (l' :: ls)

/-- The accumulation loop of `cleanMarkdown` (reader.go lines 121-133):
trim the line; a blank line bumps `emptyCount` and is kept only while
`emptyCount <= 2`; a non-blank line is kept trimmed and resets the
counter. -/
def cleanLoop : List (List Char) → Nat → List (List Char)
  | [], _ => []
  | line :: rest, emptyCount =>
    let trimmed := trimSpace line
    if trimmed.isEmpty then
      if emptyCount + 1 ≤ 2 then [] :: cleanLoop rest (emptyCount + 1)
      else cleanLoop rest (emptyCount + 1)
    else trimmed :: cleanLoop rest 0

/-- the `for len(cleaned) > 0 && cleaned[len(cleaned)-1] == ""` loop
(reader.go lines 139-141): drop the maximal blank suffix. -/
def dropTrailingBlanks : List (List Char) → List (List Char)
  | [] => []
  | a :: rest =>
    match dropTrailingBlanks rest with
    | [] => if a.isEmpty then [] else [a]
    | r => a :: r

/-- lines 121-141 of reader.go: the whole line-level pipeline (the
leading-blank loop at lines 136-138 is the `dropWhile`). -/
def cleanMarkdownLines (lines : List (List Char)) : List (List Char) :=
  dropTrailingBlanks ((cleanLoop lines 0).dropWhile List.isEmpty)

/-- `cleanMarkdown` (reader.go lines 116-144). -/
def cleanMarkdown (markdown : String) : String :=
  String.mk (joinLines (cleanMarkdownLines (splitLines markdown.data)))

/-! ## `web_search` tool handler (pkg/server/server.go lines 100-150)

The MCP layer hands the handler `request.Params.Arguments` as an
`interface{}`; the handler type-asserts it to
`map[string]interface{}` and each argument to its expected type. The
handler's Go return type is `(*mcp.CallToolResult, error)`; the second
component below models that `error` (a transport-level fault). -/

inductive MCPArgValue where
  | str (s : String)
  /-- a JSON number. Go hands numbers to the handler as `float64` and
  the handler truncates to `int`; the claims only meet integral values,
  so the payload is the truncated integer. -/
  | num (n : Int)
  | boolean (b : Bool)
  /-- any other dynamic type (array, object, null, …). -/
  | other
deriving Repr, DecidableEq

inductive MCPArguments where
  | map (entries : List (String × MCPArgValue))
  | notMap
deriving Repr, DecidableEq

structure CallToolResult where
  isError : Bool
  text : String
deriving Repr, DecidableEq

/-- `mcp.NewToolResultError`. -/
def NewToolResultError (msg : String) : CallToolResult :=
  { isError := true, text := msg }

/-- `mcp.NewToolResultText`. -/
def NewToolResultText (t : String) : CallToolResult :=
  { isError := false, text := t }

/-- `Server.handleWebSearch` (server.go lines 100-150). `search`
abstracts `s.searxngClient.Search(ctx, ·)` and `render` the
`json.MarshalIndent(formatSearchResults(·))` step (which cannot fail on
a `map[string]interface{}`). Every return path of the Go handler has a
`nil` second component, mirrored by `none`. -/
def handleWebSearch (search : SearchRequest → Except SearchErr SearchResponse)
    (render : SearchResponse → String) (args : MCPArguments) :
    CallToolResult × Option Unit :=
  match args with
  | .notMap => (NewToolResultError "invalid arguments format", none)
  | .map m =>
    match m.lookup "query" with
    | some (.str query) =>
      if query = "" then (NewToolResultError "query is required", none)
      else
        let req : SearchRequest :=
          { Query := query, Limit := 0, Page := 0, TimeRange := "", Category := "",
            Language := "", Engines := [] }
        let req := match m.lookup "limit" with
          | some (.num n) => { req with Limit := n }
          | _ => req
        let req := match m.lookup "time_range" with
          | some (.str s) => { req with TimeRange := s }
          | _ => req
        let req := match m.lookup "category" with
          | some (.str s) => { req with Category := s }
          | _ => req
        let req := match m.lookup "page" with
          | some (.num n) => { req with Page := n }
          | _ => req
        match search req with
        | .error e => (NewToolResultError ("search failed: " ++ e.message), none)
        | .ok resp => (NewToolResultText (render resp), none)
    | _ => (NewToolResultError "query is required", none)

/-! ## Observables used by the statements

`startsTripleBlank` / `hasTripleBlank` detect a run of three
consecutive blank lines; `leadBlanks` counts leading blank lines.
They only appear in statements and proofs about `cleanMarkdown`. -/

def startsTripleBlank : List (List Char) → Bool
  | a :: b :: c :: _ => a.isEmpty && b.isEmpty && c.isEmpty
  | _ => false

def hasTripleBlank : List (List Char) → Bool
  | [] => false
  | a :: rest => startsTripleBlank (a :: rest) || hasTripleBlank rest

def leadBlanks : List (List Char) → Nat
  | [] => 0
  | a :: rest => if a.isEmpty then leadBlanks rest + 1 else 0

/-! ## Helper lemmas: refill and wait -/

theorem rateLimiterRefill_maxTokens (rl : RateLimiterState) (now : Nat) :
    (rateLimiterRefill rl now).maxTokens = rl.maxTokens := by
  simp only [rateLimiterRefill]
  split <;> rfl

theorem rateLimiterRefill_refillRate (rl : RateLimiterState) (now : Nat) :
    (rateLimiterRefill rl now).refillRate = rl.refillRate := by
  simp only [rateLimiterRefill]
  split <;> rfl

theorem rateLimiterRefill_tokens_le (rl : RateLimiterState) (now : Nat)
    (h : rl.tokens ≤ rl.maxTokens) :
    (rateLimiterRefill rl now).tokens ≤ rl.maxTokens := by
  simp only [rateLimiterRefill]
  split
  · simp only []
    omega
  · exact h

theorem rateLimiterRefill_tokens_ge (rl : RateLimiterState) (now : Nat)
    (h : rl.tokens ≤ rl.maxTokens) :
    rl.tokens ≤ (rateLimiterRefill rl now).tokens := by
  simp only [rateLimiterRefill]
  split
  · simp only []
    omega
  · exact Nat.le_refl _

/-- when `wait` ends in cancellation the token count at that moment is
zero, and it never dropped below the entry count on the way. -/
theorem rateLimiterWait_cancelled_tokens :
    ∀ (sched : List (Nat × WaitEvent)) (rl : RateLimiterState) (e : CtxErr)
      (rl' : RateLimiterState), rl.tokens ≤ rl.maxTokens →
      rateLimiterWait rl sched = some (.cancelled e rl') →
      rl'.tokens = 0 ∧ rl.tokens = 0 := by
  intro sched
  induction sched with
  | nil => intro rl e rl' _ h; simp [rateLimiterWait] at h
  | cons step rest ih =>
    intro rl e rl' hinv h
    obtain ⟨now, ev⟩ := step
    unfold rateLimiterWait at h
    by_cases htok : (rateLimiterRefill rl now).tokens > 0
    · simp [htok] at h
    · simp [htok] at h
      have hz : (rateLimiterRefill rl now).tokens = 0 := by omega
      have hge := rateLimiterRefill_tokens_ge rl now hinv
      cases ev with
      | tick =>
        simp at h
        have hinv1 : (rateLimiterRefill rl now).tokens ≤ (rateLimiterRefill rl now).maxTokens := by
          rw [rateLimiterRefill_maxTokens]
          exact rateLimiterRefill_tokens_le rl now hinv
        have := ih (rateLimiterRefill rl now) e rl' hinv1 h
        omega
      | cancel e' =>
        simp at h
        obtain ⟨he, hrl⟩ := h
        subst hrl
        omega

/-- C1 — the claimed carry-over of fractional elapsed time fails: with
`refillRate = 100` and an elapsed time of 150, the code sets
`lastRefill` to 150 (the current instant), not to
`0 + (150 / 100) * 100 = 100` as the claim requires. -/
theorem C1_counterexample :
    (rateLimiterRefill { tokens := 0, maxTokens := 10, refillRate := 100, lastRefill := 0 }
        150).lastRefill ≠
      0 + ((150 - 0) / 100) * 100 := by
  decide

/-- C1 amended: on every acquisition attempt the refill step adds
`floor(elapsed / refillInterval)` tokens capped at `maxTokens`; when at
least one token is added it sets the last-refill timestamp to the
current instant — discarding the fractional part of the elapsed time
rather than carrying it over — and when no token is added the
timestamp is unchanged. -/
theorem C1_refill_behaviour (rl : RateLimiterState) (now : Nat)
    (h : rl.tokens ≤ rl.maxTokens) :
    (rateLimiterRefill rl now).tokens =
      min rl.maxTokens (rl.tokens + (now - rl.lastRefill) / rl.refillRate) ∧
    (rateLimiterRefill rl now).lastRefill =
      (if 0 < (now - rl.lastRefill) / rl.refillRate then now else rl.lastRefill) ∧
    (rateLimiterRefill rl now).tokens ≤ rl.maxTokens := by
  simp only [rateLimiterRefill]
  split <;> simp_all

theorem C1_refill_behaviour_witness :
    (rateLimiterRefill { tokens := 0, maxTokens := 10, refillRate := 100, lastRefill := 0 }
        150).tokens = min 10 (0 + (150 - 0) / 100) ∧
    (rateLimiterRefill { tokens := 0, maxTokens := 10, refillRate := 100, lastRefill := 0 }
        150).lastRefill = (if 0 < (150 - 0) / 100 then 150 else 0) ∧
    (rateLimiterRefill { tokens := 0, maxTokens := 10, refillRate := 100, lastRefill := 0 }
        150).tokens ≤ 10 :=
  C1_refill_behaviour { tokens := 0, maxTokens := 10, refillRate := 100, lastRefill := 0 } 150
    (by decide)

/-- C4 — both `Search` and `SearchJSON` run the same defaulting block
(`applyDefaults`): the effective limit is 5 for non-positive input, 20
for input above 20, the input itself otherwise, hence always in
[1, 20]; the effective page is 1 for non-positive input and the input
otherwise, hence always ≥ 1; the remaining fields are untouched. -/
theorem C4_clamp (req : SearchRequest) :
    (applyDefaults req).Limit =
      (if req.Limit ≤ 0 then 5 else if req.Limit > 20 then 20 else req.Limit) ∧
    1 ≤ (applyDefaults req).Limit ∧ (applyDefaults req).Limit ≤ 20 ∧
    (applyDefaults req).Page = (if req.Page ≤ 0 then 1 else req.Page) ∧
    1 ≤ (applyDefaults req).Page ∧
    (applyDefaults req).Query = req.Query ∧
    (applyDefaults req).TimeRange = req.TimeRange ∧
    (applyDefaults req).Category = req.Category ∧
    (applyDefaults req).Language = req.Language ∧
    (applyDefaults req).Engines = req.Engines := by
  obtain ⟨q, L, P, tr, cat, lang, eng⟩ := req
  simp only [applyDefaults]
  by_cases h1 : L ≤ 0 <;> by_cases h2 : 20 < L <;> by_cases h3 : P ≤ 0 <;>
    simp_all [apply_ite SearchRequest.Limit, apply_ite SearchRequest.Page,
      apply_ite SearchRequest.Query, apply_ite SearchRequest.TimeRange,
      apply_ite SearchRequest.Category, apply_ite SearchRequest.Language,
      apply_ite SearchRequest.Engines] <;> omega

/-! ## Helper lemmas: the retry loop -/

/-- with the first attempt numbered `a ≥ 1`, if every attempt fails
with a non-cancellation error the loop runs all `r + 1` attempts,
sleeps `a, a+1, …, a+r` seconds, and wraps the last error. -/
theorem searchRetryAux_all_fail (oracle : Nat → Except SearchErr SearchResponse)
    (e : Nat → SearchErr)
    (hfail : ∀ n, oracle n = .error (e n))
    (hnc : ∀ n, (e n).isCanceled = false ∧ (e n).isDeadlineExceeded = false) :
    ∀ (r a : Nat), 1 ≤ a →
      searchRetryAux oracle r a =
        { result := .error (.requestFailed (e (a + r))), attempts := r + 1,
          sleeps := List.range' a (r + 1) } := by
  intro r
  induction r with
  | zero =>
    intro a ha
    unfold searchRetryAux
    rw [hfail a]
    simp [(hnc a).1, (hnc a).2, Nat.pos_of_ne_zero, ha, Nat.lt_of_lt_of_le Nat.zero_lt_one ha,
      List.range']
  | succ r ih =>
    intro a ha
    unfold searchRetryAux
    rw [hfail a]
    simp only [(hnc a).1, (hnc a).2, Bool.or_self, Bool.false_eq_true, if_false,
      ih (a + 1) (Nat.le_succ_of_le ha)]
    have h1 : a + 1 + r = a + (r + 1) := by omega
    have h2 : 0 < a := ha
    simp [h1, h2, List.range'_succ]

/-- if attempts `a … a+k-1` fail with non-cancellation errors and
attempt `a+k` fails with a cancellation/deadline error, the loop stops
right there: `k + 1` attempts, sleeps `a … a+k`, error unwrapped. -/
theorem searchRetryAux_cancel (oracle : Nat → Except SearchErr SearchResponse)
    (e : Nat → SearchErr) (ek : SearchErr)
    (hcan : (ek.isCanceled || ek.isDeadlineExceeded) = true) :
    ∀ (k r a : Nat), k ≤ r → 1 ≤ a →
      (∀ j, j < k → oracle (a + j) = .error (e (a + j)) ∧
        (e (a + j)).isCanceled = false ∧ (e (a + j)).isDeadlineExceeded = false) →
      oracle (a + k) = .error ek →
      searchRetryAux oracle r a =
        { result := .error ek, attempts := k + 1, sleeps := List.range' a (k + 1) } := by
  intro k
  induction k with
  | zero =>
    intro r a _ ha _ hk
    unfold searchRetryAux
    rw [Nat.add_zero] at hk
    rw [hk]
    have h2 : 0 < a := ha
    simp [hcan, h2, List.range']
  | succ k ih =>
    intro r a hkr ha hpre hk
    obtain ⟨r', rfl⟩ : ∃ r', r = r' + 1 := ⟨r - 1, by omega⟩
    unfold searchRetryAux
    obtain ⟨ho, hc1, hc2⟩ := hpre 0 (Nat.succ_pos k)
    rw [Nat.add_zero] at ho hc1 hc2
    rw [ho]
    have hrec := ih r' (a + 1) (by omega) (by omega)
      (fun j hj => by
        have harr : a + 1 + j = a + (j + 1) := by omega
        rw [harr]
        exact hpre (j + 1) (by omega))
      (by
        have harr : a + 1 + k = a + (k + 1) := by omega
        rw [harr]
        exact hk)
    simp only [hc1, hc2, Bool.or_self, Bool.false_eq_true, if_false, hrec]
    have h2 : 0 < a := ha
    simp [h2, List.range'_succ]

/-- C5 — when every attempt fails with a non-cancellation error,
`Search`'s retry loop performs exactly `MaxRetries + 1` attempts,
sleeps 1s, 2s, …, `MaxRetries` s before the retries (none before the
first attempt), and returns the last cause wrapped as
`ErrRequestFailed`; in the always-HTTP-500 scenario the rendered
message is the request-failure marker followed by `HTTP 500: <body>`. -/
theorem C5_retry_exhaustion (maxRetries : Nat)
    (oracle : Nat → Except SearchErr SearchResponse) (e : Nat → SearchErr)
    (hfail : ∀ n, oracle n = .error (e n))
    (hnc : ∀ n, (e n).isCanceled = false ∧ (e n).isDeadlineExceeded = false) :
    searchRetryLoop maxRetries oracle =
      { result := .error (.requestFailed (e maxRetries)), attempts := maxRetries + 1,
        sleeps := List.range' 1 maxRetries } ∧
    ∀ code body, e maxRetries = .httpStatus code body →
      (SearchErr.requestFailed (e maxRetries)).message =
        "search request failed: " ++ ("HTTP " ++ toString code ++ ": " ++ body) := by
  constructor
  · unfold searchRetryLoop
    cases maxRetries with
    | zero =>
      unfold searchRetryAux
      rw [hfail 0]
      simp [(hnc 0).1, (hnc 0).2]
    | succ r =>
      have hall := searchRetryAux_all_fail oracle e hfail hnc r 1 (Nat.le_refl 1)
      have h3 : 1 + r = r + 1 := by omega
      rw [h3] at hall
      unfold searchRetryAux
      rw [hfail 0]
      simp only [(hnc 0).1, (hnc 0).2, Bool.or_self, Bool.false_eq_true, if_false, hall]
      simp [List.range'_succ]
  · intro code body hmr
    rw [hmr]
    rfl

theorem C5_retry_exhaustion_witness :
    searchRetryLoop 3 (fun _ => .error (.httpStatus 500 "Internal Server Error")) =
      { result := .error (.requestFailed (.httpStatus 500 "Internal Server Error")),
        attempts := 4, sleeps := [1, 2, 3] } ∧
    (SearchErr.requestFailed (.httpStatus 500 "Internal Server Error")).message =
      "search request failed: HTTP 500: Internal Server Error" := by
  have h := C5_retry_exhaustion 3 (fun _ => .error (.httpStatus 500 "Internal Server Error"))
    (fun _ => .httpStatus 500 "Internal Server Error") (fun _ => rfl) (fun _ => ⟨rfl, rfl⟩)
  exact ⟨h.1, h.2 500 "Internal Server Error" rfl⟩

/-- C6 — a cancellation or deadline-exceeded failure inside the retry
loop of `Search` / `SearchJSON` (both run `searchRetryLoop`) surfaces
immediately and unwrapped: after `k` ordinary failures and a
cancellation at attempt `k`, exactly `k + 1` attempts have run, the
only sleeps are the `1s … ks` that preceded those attempts (none after
the cancellation), and the remaining `MaxRetries - k` attempts are
never issued. -/
theorem C6_cancel_stops_retry (maxRetries k : Nat)
    (oracle : Nat → Except SearchErr SearchResponse) (e : Nat → SearchErr) (ek : SearchErr)
    (hk : k ≤ maxRetries)
    (hpre : ∀ j, j < k → oracle j = .error (e j) ∧
      (e j).isCanceled = false ∧ (e j).isDeadlineExceeded = false)
    (hcancel : oracle k = .error ek)
    (hcan : (ek.isCanceled || ek.isDeadlineExceeded) = true) :
    searchRetryLoop maxRetries oracle =
      { result := .error ek, attempts := k + 1, sleeps := List.range' 1 k } := by
  unfold searchRetryLoop
  cases k with
  | zero =>
    unfold searchRetryAux
    rw [hcancel]
    simp [hcan, List.range']
  | succ k' =>
    obtain ⟨r', rfl⟩ : ∃ r', maxRetries = r' + 1 := ⟨maxRetries - 1, by omega⟩
    unfold searchRetryAux
    obtain ⟨ho, hc1, hc2⟩ := hpre 0 (Nat.succ_pos k')
    rw [ho]
    have hrec := searchRetryAux_cancel oracle e ek hcan k' r' 1 (by omega) (Nat.le_refl 1)
      (fun j hj => by
        have harr : 1 + j = j + 1 := by omega
        rw [harr]
        exact hpre (j + 1) (by omega))
      (by
        have harr : 1 + k' = k' + 1 := by omega
        rw [harr]
        exact hcancel)
    simp only [hc1, hc2, Bool.or_self, Bool.false_eq_true, if_false, hrec]
    simp [List.range'_succ]

theorem C6_cancel_stops_retry_witness :
    searchRetryLoop 3
      (fun n => if n = 0 then .error (.httpStatus 500 "x") else .error (.ctx .canceled)) =
      { result := .error (.ctx .canceled), attempts := 2, sleeps := [1] } := by
  have h := C6_cancel_stops_retry 3 1
    (fun n => if n = 0 then .error (.httpStatus 500 "x") else .error (.ctx .canceled))
    (fun _ => .httpStatus 500 "x") (.ctx .canceled)
    (by omega)
    (fun j hj => by interval_cases j; exact ⟨rfl, rfl, rfl⟩)
    rfl rfl
  exact h

/-- C7 — if the context fires while a caller is blocked in
`rateLimiter.wait`, the wait returns the cancellation with the token
count unchanged (no token consumed — the count was and stays 0), and
`Search` then fails with the `ErrTimeout` wrap of `ctx.Err()` with
zero network attempts and no backoff sleeps. -/
theorem C7_cancel_wait (rl : RateLimiterState) (sched : List (Nat × WaitEvent))
    (e : CtxErr) (rl' : RateLimiterState)
    (hinv : rl.tokens ≤ rl.maxTokens)
    (hw : rateLimiterWait rl sched = some (.cancelled e rl')) :
    rl'.tokens = rl.tokens ∧
    ∀ (cfg : Config) (oracle : Nat → Except SearchErr SearchResponse) (req : SearchRequest),
      SearchModel cfg rl sched oracle req =
        some { result := .error (.timeout (.ctx e)), networkAttempts := 0, sleeps := [],
               rlFinal := rl' } := by
  have h := rateLimiterWait_cancelled_tokens sched rl e rl' hinv hw
  constructor
  · omega
  · intro cfg oracle req
    unfold SearchModel
    rw [hw]

theorem C7_cancel_wait_witness :
    (({ tokens := 0, maxTokens := 10, refillRate := 100, lastRefill := 0 } :
        RateLimiterState)).tokens = 0 ∧
    SearchModel DefaultConfig { tokens := 0, maxTokens := 10, refillRate := 100, lastRefill := 0 }
      [(50, .cancel .canceled)] (fun _ => .error (.httpStatus 500 "x"))
      { Query := "q", Limit := 5, Page := 1, TimeRange := "", Category := "", Language := "",
        Engines := [] } =
      some { result := .error (.timeout (.ctx .canceled)), networkAttempts := 0, sleeps := [],
             rlFinal := { tokens := 0, maxTokens := 10, refillRate := 100, lastRefill := 0 } } := by
  have h := C7_cancel_wait { tokens := 0, maxTokens := 10, refillRate := 100, lastRefill := 0 }
    [(50, .cancel .canceled)] .canceled
    { tokens := 0, maxTokens := 10, refillRate := 100, lastRefill := 0 }
    (by decide) (by decide)
  exact ⟨h.1, h.2 DefaultConfig (fun _ => .error (.httpStatus 500 "x"))
    { Query := "q", Limit := 5, Page := 1, TimeRange := "", Category := "", Language := "",
      Engines := [] }⟩

/-! ## Helper lemmas: field-wise congruence of request building -/

theorem buildSearchURL_congr (cfg : Config) (r₁ r₂ : SearchRequest)
    (hq : r₁.Query = r₂.Query) (hc : r₁.Category = r₂.Category)
    (hl : r₁.Language = r₂.Language) (hp : r₁.Page = r₂.Page)
    (ht : r₁.TimeRange = r₂.TimeRange) (he : r₁.Engines = r₂.Engines) :
    buildSearchURL cfg r₁ = buildSearchURL cfg r₂ := by
  unfold buildSearchURL
  rw [hq, hc, hl, hp, ht, he]

theorem buildAPIRequest_congr (r₁ r₂ : SearchRequest)
    (hq : r₁.Query = r₂.Query) (hc : r₁.Category = r₂.Category)
    (he : r₁.Engines = r₂.Engines) (hl : r₁.Language = r₂.Language)
    (hp : r₁.Page = r₂.Page) (ht : r₁.TimeRange = r₂.TimeRange) :
    buildAPIRequest r₁ = buildAPIRequest r₂ := by
  unfold buildAPIRequest
  rw [hq, hc, he, hl, hp, ht]

/-- `applyDefaults` only rewrites `Limit` and `Page`; the `Page` result
does not depend on `Limit`. -/
theorem applyDefaults_fields (r : SearchRequest) :
    (applyDefaults r).Query = r.Query ∧ (applyDefaults r).TimeRange = r.TimeRange ∧
    (applyDefaults r).Category = r.Category ∧ (applyDefaults r).Language = r.Language ∧
    (applyDefaults r).Engines = r.Engines ∧
    (applyDefaults r).Page = (if r.Page ≤ 0 then 1 else r.Page) := by
  obtain ⟨q, L, P, tr, cat, lang, eng⟩ := r
  simp only [applyDefaults]
  by_cases h1 : L ≤ 0 <;> by_cases h2 : 20 < L <;> by_cases h3 : P ≤ 0 <;>
    simp_all [apply_ite SearchRequest.Limit, apply_ite SearchRequest.Page,
      apply_ite SearchRequest.Query, apply_ite SearchRequest.TimeRange,
      apply_ite SearchRequest.Category, apply_ite SearchRequest.Language,
      apply_ite SearchRequest.Engines]

/-- C2 — the backend request is independent of `Limit`: through the
defaulting step of `Search`/`SearchJSON`, two requests differing only
in `Limit` produce the same GET URL (no limit parameter exists) and
the same JSON POST body, and normalization returns exactly one result
per wire result with no truncation. -/
theorem C2_independent_of_limit (cfg : Config) (req : SearchRequest) (l₁ l₂ : Int)
    (api : APIResponse) :
    buildSearchURL cfg (applyDefaults { req with Limit := l₁ }) =
      buildSearchURL cfg (applyDefaults { req with Limit := l₂ }) ∧
    marshalAPIRequest (buildAPIRequest (applyDefaults { req with Limit := l₁ })) =
      marshalAPIRequest (buildAPIRequest (applyDefaults { req with Limit := l₂ })) ∧
    (toSearchResponse api).Results = some ((api.Results.getD []).map toSearchResult) ∧
    ((toSearchResponse api).Results.getD []).length = (api.Results.getD []).length := by
  have f₁ := applyDefaults_fields { req with Limit := l₁ }
  have f₂ := applyDefaults_fields { req with Limit := l₂ }
  have hreq : buildAPIRequest (applyDefaults { req with Limit := l₁ }) =
      buildAPIRequest (applyDefaults { req with Limit := l₂ }) := by
    apply buildAPIRequest_congr <;>
      simp only [f₁.1, f₂.1, f₁.2.1, f₂.2.1, f₁.2.2.1, f₂.2.2.1, f₁.2.2.2.1, f₂.2.2.2.1,
        f₁.2.2.2.2.1, f₂.2.2.2.2.1, f₁.2.2.2.2.2, f₂.2.2.2.2.2]
  refine ⟨?_, congrArg marshalAPIRequest hreq, rfl, ?_⟩
  · apply buildSearchURL_congr <;>
      simp only [f₁.1, f₂.1, f₁.2.1, f₂.2.1, f₁.2.2.1, f₂.2.2.1, f₁.2.2.2.1, f₂.2.2.2.1,
        f₁.2.2.2.2.1, f₂.2.2.2.2.1, f₁.2.2.2.2.2, f₂.2.2.2.2.2]
  · simp [toSearchResponse]

/-- C3 fails as stated: a wire payload whose `answers` (and every
other optional sequence) is absent normalizes to the nil slice
(`none`), not to a present empty sequence. -/
theorem C3_counterexample :
    (toSearchResponse
        { Query := "q", NumberOfResults := 0, Results := none, Answers := none,
          Corrections := none, Infoboxes := none, Suggestions := none,
          UnresponsiveEngines := none }).Answers = none ∧
    (toSearchResponse
        { Query := "q", NumberOfResults := 0, Results := none, Answers := none,
          Corrections := none, Infoboxes := none, Suggestions := none,
          UnresponsiveEngines := none }).Suggestions = none :=
  ⟨rfl, rfl⟩

/-- C3 amended: normalization always produces a present (non-nil)
`Results` sequence — one normalized entry per wire result, empty when
the wire field is missing — while the other five sequence fields
(answers, corrections, suggestions, infoboxes, unresponsive engines)
are passed through unchanged, so a missing wire sequence stays the
absent marker (a Go nil slice; iterating it yields zero elements). -/
theorem C3_sequence_fields (r : APIResponse) :
    (toSearchResponse r).Results = some ((r.Results.getD []).map toSearchResult) ∧
    ((toSearchResponse r).Results).isSome = true ∧
    (toSearchResponse r).Answers = r.Answers ∧
    (toSearchResponse r).Corrections = r.Corrections ∧
    (toSearchResponse r).Infoboxes = r.Infoboxes ∧
    (toSearchResponse r).Suggestions = r.Suggestions ∧
    (toSearchResponse r).UnresponsiveEngines = r.UnresponsiveEngines :=
  ⟨rfl, rfl, rfl, rfl, rfl, rfl, rfl⟩

/-- C8 — `parsePublishedDate` attempts the four formats in order
(RFC3339 with zone first, then timestamp-with-literal-Z, then
space-separated date-time, then date-only), returns the first
successful parse, and returns absent for empty input or when no format
matches; `"2024-01-15T10:30:00Z"` and `"2024-01-15"` both parse to
year 2024, `""` and `"not-a-date"` both yield absent. -/
theorem C8_parse_published_date :
    (∀ (s : String) (t : GoTime), s ≠ "" → parseLayoutRFC3339 s.data = some t →
      parsePublishedDate s = some t) ∧
    (∀ (s : String), s ≠ "" → parseLayoutRFC3339 s.data = none →
      parseLayoutISOZ s.data = none → parseLayoutSpace s.data = none →
      parseLayoutDateOnly s.data = none → parsePublishedDate s = none) ∧
    (parsePublishedDate "2024-01-15T10:30:00Z").map GoTime.year = some 2024 ∧
    (parsePublishedDate "2024-01-15").map GoTime.year = some 2024 ∧
    parsePublishedDate "" = none ∧
    parsePublishedDate "not-a-date" = none := by
  refine ⟨?_, ?_, by decide, by decide, by decide, by decide⟩
  · intro s t hs hp
    unfold parsePublishedDate
    simp [hs, hp]
  · intro s hs h1 h2 h3 h4
    unfold parsePublishedDate
    simp [hs, h1, h2, h3, h4]

theorem C8_parse_published_date_witness :
    parsePublishedDate "2024-01-15T10:30:00Z" =
      some { year := 2024, month := 1, day := 15, hour := 10, minute := 30, second := 0,
             tzOffsetSeconds := 0 } ∧
    parsePublishedDate "not-a-date" = none :=
  ⟨C8_parse_published_date.1 "2024-01-15T10:30:00Z"
      { year := 2024, month := 1, day := 15, hour := 10, minute := 30, second := 0,
        tzOffsetSeconds := 0 } (by decide) (by decide),
   C8_parse_published_date.2.1 "not-a-date" (by decide) (by decide) (by decide) (by decide)
      (by decide)⟩

/-! ## Helper lemmas: `cleanMarkdown` -/

theorem trimRight_head (m : List Char) (c : Char) (h : (trimRight m).head? = some c) :
    m.head? = some c := by
  cases m with
  | nil => simp [trimRight] at h
  | cons a rest =>
    unfold trimRight at h
    cases htr : trimRight rest with
    | nil =>
      rw [htr] at h
      by_cases hsp : goIsSpace a
      · simp [hsp] at h
      · simp [hsp] at h
        simp [h]
    | cons b r =>
      rw [htr] at h
      simp at h
      simp [h]

theorem trimRight_trimRight (m : List Char) : trimRight (trimRight m) = trimRight m := by
  induction m with
  | nil => rfl
  | cons a rest ih =>
    rw [show trimRight (a :: rest) = (match trimRight rest with
        | [] => if goIsSpace a then [] else [a]
        | r => a :: r) from rfl]
    cases htr : trimRight rest with
    | nil =>
      by_cases hsp : goIsSpace a <;> simp [hsp, trimRight]
    | cons b r =>
      rw [htr] at ih
      rw [show trimRight (a :: b :: r) = (match trimRight (b :: r) with
          | [] => if goIsSpace a then [] else [a]
          | r' => a :: r') from rfl]
      rw [ih]

theorem dropWhile_eq_self_of_head {α : Type} (p : α → Bool) (m : List α)
    (h : ∀ c, m.head? = some c → p c = false) : m.dropWhile p = m := by
  cases m with
  | nil => rfl
  | cons a rest => simp [List.dropWhile_cons, h a rfl]

theorem trimSpace_trimSpace (l : List Char) : trimSpace (trimSpace l) = trimSpace l := by
  unfold trimSpace
  have hd : (trimRight (l.dropWhile goIsSpace)).dropWhile goIsSpace =
      trimRight (l.dropWhile goIsSpace) := by
    apply dropWhile_eq_self_of_head
    intro c hc
    have hc' := trimRight_head _ c hc
    have hnot := List.head?_dropWhile_not goIsSpace l
    rw [hc'] at hnot
    exact hnot
  rw [hd, trimRight_trimRight]

theorem mem_cleanLoop (x : List Char) :
    ∀ (lines : List (List Char)) (ec : Nat), x ∈ cleanLoop lines ec →
      x = [] ∨ ∃ line, x = trimSpace line := by
  intro lines
  induction lines with
  | nil => intro ec h; simp [cleanLoop] at h
  | cons line rest ih =>
    intro ec h
    unfold cleanLoop at h
    by_cases he : (trimSpace line).isEmpty = true
    · by_cases hec : ec + 1 ≤ 2
      · simp only [he, if_true, hec, if_pos] at h
        rcases List.mem_cons.mp h with h1 | h2
        · exact Or.inl h1
        · exact ih (ec + 1) h2
      · simp only [he, if_true, hec, if_false] at h
        exact ih (ec + 1) h
    · simp only [he, Bool.false_eq_true, if_false] at h
      rcases List.mem_cons.mp h with h1 | h2
      · exact Or.inr ⟨line, h1⟩
      · exact ih 0 h2

theorem mem_dropTrailingBlanks (x : List Char) :
    ∀ (l : List (List Char)), x ∈ dropTrailingBlanks l → x ∈ l := by
  intro l
  induction l with
  | nil => intro h; simp [dropTrailingBlanks] at h
  | cons a rest ih =>
    intro h
    unfold dropTrailingBlanks at h
    cases hd : dropTrailingBlanks rest with
    | nil =>
      rw [hd] at h
      by_cases he : a.isEmpty = true
      · simp [he] at h
      · simp [he] at h
        simp [h]
    | cons b r =>
      rw [hd] at h
      rcases List.mem_cons.mp h with h1 | h2
      · simp [h1]
      · have h3 : x ∈ dropTrailingBlanks rest := by rw [hd]; exact h2
        exact List.mem_cons_of_mem a (ih h3)

theorem startsTripleBlank_cons_false (a : List Char) (l : List (List Char))
    (h : a.isEmpty = false) : startsTripleBlank (a :: l) = false := by
  cases l with
  | nil => rfl
  | cons b l' =>
    cases l' with
    | nil => rfl
    | cons c l'' => simp [startsTripleBlank, h]

theorem startsTripleBlank_leadBlanks (l : List (List Char))
    (h : startsTripleBlank l = true) : 3 ≤ leadBlanks l := by
  match l with
  | [] => simp [startsTripleBlank] at h
  | [a] => simp [startsTripleBlank] at h
  | [a, b] => simp [startsTripleBlank] at h
  | a :: b :: c :: rest =>
    simp only [startsTripleBlank, Bool.and_eq_true] at h
    obtain ⟨⟨h1, h2⟩, h3⟩ := h
    have e1 : leadBlanks (a :: b :: c :: rest) = leadBlanks rest + 1 + 1 + 1 := by
      simp [leadBlanks, h1, h2, h3]
    omega

theorem hasTripleBlank_append_right (r s : List (List Char))
    (h : hasTripleBlank s = true) : hasTripleBlank (r ++ s) = true := by
  induction r with
  | nil => simpa
  | cons a r' ih => simp [hasTripleBlank, ih]

theorem hasTripleBlank_append_left (r s : List (List Char))
    (h : hasTripleBlank r = true) : hasTripleBlank (r ++ s) = true := by
  induction r with
  | nil => simp [hasTripleBlank] at h
  | cons a r' ih =>
    simp only [hasTripleBlank, Bool.or_eq_true] at h
    rcases h with h | h
    · cases r' with
      | nil => simp [startsTripleBlank] at h
      | cons b r'' =>
        cases r'' with
        | nil => simp [startsTripleBlank] at h
        | cons c t =>
          simp only [List.cons_append, hasTripleBlank, Bool.or_eq_true]
          left
          simpa [startsTripleBlank] using h
    · simp [hasTripleBlank, ih h]

theorem cleanLoop_no_triple :
    ∀ (lines : List (List Char)) (ec : Nat),
      hasTripleBlank (cleanLoop lines ec) = false ∧
      min ec 2 + leadBlanks (cleanLoop lines ec) ≤ 2 := by
  intro lines
  induction lines with
  | nil => intro ec; simp [cleanLoop, hasTripleBlank, leadBlanks]
  | cons line rest ih =>
    intro ec
    unfold cleanLoop
    by_cases he : (trimSpace line).isEmpty = true
    · by_cases hec : ec + 1 ≤ 2
      · simp only [he, if_true, hec, if_pos]
        obtain ⟨h1, h2⟩ := ih (ec + 1)
        have hlead : leadBlanks ([] :: cleanLoop rest (ec + 1)) =
            leadBlanks (cleanLoop rest (ec + 1)) + 1 := by
          simp [leadBlanks]
        have hst : startsTripleBlank ([] :: cleanLoop rest (ec + 1)) = false := by
          cases hx : startsTripleBlank ([] :: cleanLoop rest (ec + 1)) with
          | false => rfl
          | true =>
            exfalso
            have h3 := startsTripleBlank_leadBlanks _ hx
            omega
        constructor
        · simp [hasTripleBlank, hst, h1]
        · omega
      · simp only [he, if_true, hec, if_false]
        obtain ⟨h1, h2⟩ := ih (ec + 1)
        exact ⟨h1, by omega⟩
    · simp only [he, Bool.false_eq_true, if_false]
      obtain ⟨h1, h2⟩ := ih 0
      have he' : (trimSpace line).isEmpty = false := by
        cases hx : (trimSpace line).isEmpty with
        | false => rfl
        | true => exact absurd hx he
      constructor
      · simp [hasTripleBlank, startsTripleBlank_cons_false _ _ he', h1]
      · have : leadBlanks (trimSpace line :: cleanLoop rest 0) = 0 := by
          simp [leadBlanks, he']
        omega

theorem dropTrailingBlanks_decomp :
    ∀ (l : List (List Char)), ∃ s, l = dropTrailingBlanks l ++ s := by
  intro l
  induction l with
  | nil => exact ⟨[], rfl⟩
  | cons a rest ih =>
    obtain ⟨s, hs⟩ := ih
    unfold dropTrailingBlanks
    cases hd : dropTrailingBlanks rest with
    | nil =>
      by_cases he : a.isEmpty = true
      · exact ⟨a :: rest, by simp [he]⟩
      · exact ⟨rest, by simp [he]⟩
    | cons b r =>
      rw [hd] at hs
      exact ⟨s, by rw [List.cons_append, ← hs]⟩

theorem dropTrailingBlanks_head (z : List (List Char)) (x : List Char)
    (hx : (dropTrailingBlanks z).head? = some x) : z.head? = some x := by
  cases z with
  | nil => simp [dropTrailingBlanks] at hx
  | cons a rest =>
    unfold dropTrailingBlanks at hx
    cases hd : dropTrailingBlanks rest with
    | nil =>
      rw [hd] at hx
      by_cases he : a.isEmpty = true
      · simp [he] at hx
      · simp [he] at hx
        simp [hx]
    | cons b r =>
      rw [hd] at hx
      simp at hx
      simp [hx]

theorem dropTrailingBlanks_getLast (z : List (List Char)) (x : List Char)
    (hx : (dropTrailingBlanks z).getLast? = some x) : x.isEmpty = false := by
  induction z with
  | nil => simp [dropTrailingBlanks] at hx
  | cons a rest ih =>
    unfold dropTrailingBlanks at hx
    cases hd : dropTrailingBlanks rest with
    | nil =>
      rw [hd] at hx
      by_cases he : a.isEmpty = true
      · simp [he] at hx
      · simp [he] at hx
        rw [← hx]
        cases hy : a.isEmpty with
        | false => rfl
        | true => exact absurd hy he
    | cons b r =>
      rw [hd] at hx
      rw [List.getLast?_cons_cons] at hx
      exact ih (by rw [hd]; exact hx)

/-- the four guarantees of the line-level pipeline. -/
theorem cleanMarkdownLines_spec (lines : List (List Char)) :
    (∀ l ∈ cleanMarkdownLines lines, trimSpace l = l) ∧
    hasTripleBlank (cleanMarkdownLines lines) = false ∧
    (cleanMarkdownLines lines).head? ≠ some [] ∧
    (cleanMarkdownLines lines).getLast? ≠ some [] := by
  refine ⟨?_, ?_, ?_, ?_⟩
  · intro l hl
    have h1 : l ∈ (cleanLoop lines 0).dropWhile List.isEmpty :=
      mem_dropTrailingBlanks l _ hl
    have h2 : l ∈ cleanLoop lines 0 := (List.dropWhile_sublist _).subset h1
    rcases mem_cleanLoop l lines 0 h2 with h3 | ⟨line, h3⟩
    · rw [h3]; rfl
    · rw [h3]; exact trimSpace_trimSpace line
  · cases hx : hasTripleBlank (cleanMarkdownLines lines) with
    | false => rfl
    | true =>
      exfalso
      obtain ⟨s, hs⟩ := dropTrailingBlanks_decomp ((cleanLoop lines 0).dropWhile List.isEmpty)
      have h4 : hasTripleBlank ((cleanLoop lines 0).dropWhile List.isEmpty) = true := by
        rw [hs]
        exact hasTripleBlank_append_left _ _ hx
      have h5 : hasTripleBlank (cleanLoop lines 0) = true := by
        rw [← List.takeWhile_append_dropWhile (p := List.isEmpty) (l := cleanLoop lines 0)]
        exact hasTripleBlank_append_right _ _ h4
      have h6 := (cleanLoop_no_triple lines 0).1
      rw [h6] at h5
      exact Bool.false_ne_true h5
  · intro hx
    have h1 := dropTrailingBlanks_head _ _ hx
    have h2 := List.head?_dropWhile_not List.isEmpty (cleanLoop lines 0)
    rw [h1] at h2
    simp at h2
  · intro hx
    have h1 := dropTrailingBlanks_getLast _ _ hx
    simp at h1

/-- C9 — for every input string, `cleanMarkdown` splits into lines and
produces output whose every line is its own trim (surrounding
whitespace removed), which contains no run of three consecutive blank
lines (runs are collapsed to at most two), and whose first and last
lines are non-blank (leading and trailing blank lines removed); the
output document is exactly these lines rejoined with newlines. -/
theorem C9_clean_markdown (markdown : String) :
    (∀ l ∈ cleanMarkdownLines (splitLines markdown.data), trimSpace l = l) ∧
    hasTripleBlank (cleanMarkdownLines (splitLines markdown.data)) = false ∧
    (cleanMarkdownLines (splitLines markdown.data)).head? ≠ some [] ∧
    (cleanMarkdownLines (splitLines markdown.data)).getLast? ≠ some [] ∧
    cleanMarkdown markdown =
      String.mk (joinLines (cleanMarkdownLines (splitLines markdown.data))) := by
  obtain ⟨h1, h2, h3, h4⟩ := cleanMarkdownLines_spec (splitLines markdown.data)
  exact ⟨h1, h2, h3, h4, rfl⟩

theorem C9_clean_markdown_witness :
    trimSpace ['x'] = ['x'] ∧ cleanMarkdown " x \n\n\n\ny " = "x\n\n\ny" :=
  ⟨(C9_clean_markdown " x \n\n\n\ny ").1 ['x'] (by decide), by decide⟩

/-- C10 — whenever the `query` argument of a `web_search` invocation
is absent, empty, or not a string, `handleWebSearch` returns the
normal tool-error result `"query is required"` and its Go `error`
return is `nil` (no transport-level fault), for every search backend
and result renderer. -/
theorem C10_query_required (search : SearchRequest → Except SearchErr SearchResponse)
    (render : SearchResponse → String) (m : List (String × MCPArgValue))
    (h : ∀ s : String, s ≠ "" → m.lookup "query" ≠ some (.str s)) :
    handleWebSearch search render (.map m) = (NewToolResultError "query is required", none) := by
  cases hq : m.lookup "query" with
  | none => simp [handleWebSearch, hq]
  | some v =>
    cases v with
    | str s =>
      by_cases hs : s = ""
      · simp [handleWebSearch, hq, hs]
      · exact absurd hq (h s hs)
    | num n => simp [handleWebSearch, hq]
    | boolean b => simp [handleWebSearch, hq]
    | other => simp [handleWebSearch, hq]

theorem C10_query_required_witness :
    handleWebSearch
      (fun _ => .ok { Query := "", NumberOfResults := 0, Results := none, Answers := none,
                      Corrections := none, Infoboxes := none, Suggestions := none,
                      UnresponsiveEngines := none })
      (fun _ => "") (.map []) =
      (NewToolResultError "query is required", none) :=
  C10_query_required _ _ [] (fun s _ => by simp)
